import Mathlib

/-!
Verification development for the `cronosquery` interactive CLI
(`cronosquery.py`).  The tool queries Cosmos-SDK REST endpoints of two
Cronos chains and renders the decoded JSON responses.

The embedding below models the decoded JSON values, the relevant pieces of
Python semantics (truthiness, `in`, `dict.get`, `int(...)`, `str.replace`,
`str.title`, `str.strip`, thousands-separated and one-decimal formatting,
`json.dumps(indent=2, ensure_ascii=False)`), the chain registry and session
state, and the functions of class `CronosCLI` that the verified properties
are about: `switch_chain`, the path-parameter substitution of
`make_request`, `display_menu`, `format_response` and its shape-specific
renderers.  Fallible Python code (code that can raise) is embedded in
`Except PyErr`.
-/

/-- Decoded JSON values (the result of `response.json()`).  Objects are
association lists in document order; JSON numbers that occur in the data
handled by this tool are integers. -/
inductive Json where
  | null : Json
  | bool (b : Bool) : Json
  | num (n : Int) : Json
  | str (s : String) : Json
  | arr (xs : List Json) : Json
  | obj (fields : List (String × Json)) : Json

/-- The kinds of Python exceptions the embedded code can raise. -/
inductive PyErr where
  | valueError : PyErr
  | typeError : PyErr
  | attributeError : PyErr
  | keyError : PyErr
deriving DecidableEq

/-- Python truthiness (`bool(x)`) of a decoded JSON value. -/
def pyTruthy : Json → Bool
  | .null => false
  | .bool b => b
  | .num n => n != 0
  | .str s => !s.data.isEmpty
  | .arr xs => !xs.isEmpty
  | .obj fs => !fs.isEmpty

/-- Key lookup in a decoded JSON object (Python `dict` lookup; keys of an
object decoded by `json.loads` are unique). -/
def jLookup : List (String × Json) → String → Option Json
  | [], _ => none
  | (k, v) :: rest, key => if k = key then some v else jLookup rest key

/-- Python `key in d` for a dict. -/
def hasKey (fs : List (String × Json)) (key : String) : Bool :=
  (jLookup fs key).isSome

/-- Substring test, used to model Python `key in s` for strings. -/
def hasSubstr : List Char → List Char → Bool
  | pat, [] => pat.isEmpty
  | pat, c :: rest => pat.isPrefixOf (c :: rest) || hasSubstr pat rest

/-- Python `key in data` for the string keys tested by `format_response`:
dict membership on objects, element equality on lists (a non-string element
never equals a string key), substring test on strings, `TypeError`
otherwise. -/
def pyIn (key : String) : Json → Except PyErr Bool
  | .obj fs => .ok (hasKey fs key)
  | .arr xs => .ok (xs.any fun j => match j with | .str s => s == key | _ => false)
  | .str s => .ok (hasSubstr key.data s.data)
  | _ => .error .typeError

/-- Python `d.get(key, default)`: `AttributeError` when the receiver is not
a dict. -/
def pyGet (j : Json) (key : String) (dflt : Json) : Except PyErr Json :=
  match j with
  | .obj fs => .ok ((jLookup fs key).getD dflt)
  | _ => .error .attributeError

/-- Python `d[key]` with a string key: `KeyError` when absent,
`AttributeError`/`TypeError` never arise at the guarded call site but a
non-dict receiver raises `TypeError` (string indices / list indices must be
integers). -/
def pySubscr (j : Json) (key : String) : Except PyErr Json :=
  match j with
  | .obj fs =>
    match jLookup fs key with
    | some v => .ok v
    | none => .error .keyError
  | _ => .error .typeError

/-- Whitespace stripped by Python `str.strip()` and `int(str)`. -/
def isPySpace (c : Char) : Bool :=
  c = ' ' || c = '\t' || c = '\n' || c = '\r' || c = '\x0b' || c = '\x0c'

/-- Strip leading and trailing whitespace from a character list. -/
def pyStripChars (l : List Char) : List Char :=
  ((l.dropWhile isPySpace).reverse.dropWhile isPySpace).reverse

/-- Python `str.strip()`. -/
def pyStrip (s : String) : String := ⟨pyStripChars s.data⟩

/-- Value of a nonempty all-digit character list, `none` otherwise. -/
def digitsVal (ds : List Char) : Option Nat :=
  if ds.isEmpty then none
  else if ds.all Char.isDigit then
    some (ds.foldl (fun acc c => 10 * acc + (c.toNat - '0'.toNat)) 0)
  else none

/-- Python `int(s)` on a string: strip whitespace, optional sign, decimal
digits; `none` models the `ValueError` (digit-group underscores accepted by
CPython are not modelled; no count string in scope uses them). -/
def pyParseInt (s : String) : Option Int :=
  match pyStripChars s.data with
  | '+' :: ds => (digitsVal ds).map (fun n => (n : Int))
  | '-' :: ds => (digitsVal ds).map (fun n => -(n : Int))
  | ds => (digitsVal ds).map (fun n => (n : Int))

/-- Python `int(x)` on a decoded JSON value: strings are parsed
(`ValueError` on failure), numbers are already ints, bools are 0/1, other
values raise `TypeError`. -/
def pyIntOfJson : Json → Except PyErr Int
  | .str s =>
    match pyParseInt s with
    | some n => .ok n
    | none => .error .valueError
  | .num n => .ok n
  | .bool b => .ok (if b then 1 else 0)
  | _ => .error .typeError

/-- Join a list of strings with `", "` (Python `repr` of containers). -/
def sepComma : List String → String
  | [] => ""
  | [s] => s
  | s :: s2 :: rest => s ++ ", " ++ sepComma (s2 :: rest)

mutual
/-- Python `repr` of a decoded JSON value.  String escaping inside `repr`
is not modelled: no claim exercises it. -/
def pyRepr : Json → String
  | .null => "None"
  | .bool b => if b then "True" else "False"
  | .num n => toString n
  | .str s => "'" ++ s ++ "'"
  | .arr xs => "[" ++ sepComma (pyReprList xs) ++ "]"
  | .obj fs => "\x7b" ++ sepComma (pyReprFields fs) ++ "\x7d"

/-- `repr` of the elements of a Python list. -/
def pyReprList : List Json → List String
  | [] => []
  | x :: rest => pyRepr x :: pyReprList rest

/-- `repr` of the items of a Python dict. -/
def pyReprFields : List (String × Json) → List String
  | [] => []
  | (k, v) :: rest => ("'" ++ k ++ "': " ++ pyRepr v) :: pyReprFields rest
end

/-- Python `str(x)` as used by f-string interpolation. -/
def pyStr : Json → String
  | .str s => s
  | j => pyRepr j

/-- Lowercase hex digit. -/
def hexDigit (n : Nat) : Char :=
  if n < 10 then Char.ofNat ('0'.toNat + n) else Char.ofNat ('a'.toNat + n - 10)

/-- Escaping of one character by `json.dumps` with `ensure_ascii=False`:
quote, backslash and control characters are escaped, everything else
(non-ASCII included) is kept verbatim. -/
def escChar (c : Char) : List Char :=
  if c = '"' then ['\\', '"']
  else if c = '\\' then ['\\', '\\']
  else if c = '\n' then ['\\', 'n']
  else if c = '\t' then ['\\', 't']
  else if c = '\r' then ['\\', 'r']
  else if c = '\x08' then ['\\', 'b']
  else if c = '\x0c' then ['\\', 'f']
  else if c.toNat < 32 then ['\\', 'u', '0', '0', hexDigit (c.toNat / 16), hexDigit (c.toNat % 16)]
  else [c]

/-- JSON string escaping of `json.dumps(..., ensure_ascii=False)`. -/
def escapeJson (s : String) : String := ⟨s.data.foldr (fun c acc => escChar c ++ acc) []⟩

/-- A run of `n` spaces. -/
def spaces (n : Nat) : String := ⟨List.replicate n ' '⟩

/-- Join rendered container items with `",\n"`. -/
def sepLines : List String → String
  | [] => ""
  | [s] => s
  | s :: s2 :: rest => s ++ ",\n" ++ sepLines (s2 :: rest)

mutual
/-- `json.dumps(v, indent=2, ensure_ascii=False)` at indentation `ind`. -/
def dumpsAux : Nat → Json → String
  | _, .null => "null"
  | _, .bool b => if b then "true" else "false"
  | _, .num n => toString n
  | _, .str s => "\"" ++ escapeJson s ++ "\""
  | ind, .arr xs =>
    if xs.isEmpty then "[]"
    else "[\n" ++ sepLines (dumpsItems (ind + 2) xs) ++ "\n" ++ spaces ind ++ "]"
  | ind, .obj fs =>
    if fs.isEmpty then "\x7b\x7d"
    else "\x7b\n" ++ sepLines (dumpsFields (ind + 2) fs) ++ "\n" ++ spaces ind ++ "\x7d"

/-- Indented renderings of the elements of a JSON array. -/
def dumpsItems : Nat → List Json → List String
  | _, [] => []
  | ind, x :: rest => (spaces ind ++ dumpsAux ind x) :: dumpsItems ind rest

/-- Indented renderings of the members of a JSON object. -/
def dumpsFields : Nat → List (String × Json) → List String
  | _, [] => []
  | ind, (k, v) :: rest =>
    (spaces ind ++ "\"" ++ escapeJson k ++ "\": " ++ dumpsAux ind v) :: dumpsFields ind rest
end

/-- `json.dumps(v, indent=2, ensure_ascii=False)` — the fallback rendering
of `format_response`. -/
def dumps (j : Json) : String := dumpsAux 0 j

/-- One non-overlapping left-to-right replacement sweep of Python
`str.replace` (nonempty pattern), fuelled by the length of the scanned
text. -/
def replGo : Nat → List Char → List Char → List Char → List Char
  | 0, _, _, s => s
  | _ + 1, _, _, [] => []
  | fuel + 1, pat, rep, c :: rest =>
    if pat.isPrefixOf (c :: rest) then
      rep ++ replGo fuel pat rep (rest.drop (pat.length - 1))
    else
      c :: replGo fuel pat rep rest

/-- Python `s.replace(pat, rep)` (all occurrences, non-overlapping,
left-to-right; the empty pattern inserts `rep` at every position). -/
def pyReplace (s pat rep : String) : String :=
  if pat.data.isEmpty then
    rep ++ ⟨s.data.foldr (fun c acc => c :: (rep.data ++ acc)) []⟩
  else ⟨replGo s.data.length pat.data rep.data s.data⟩

/-- Case mapping of Python `str.title()`: a letter is uppercased when the
preceding character is not a letter, lowercased otherwise (the statuses in
scope are ASCII). -/
def titleGo : Bool → List Char → List Char
  | _, [] => []
  | prevAlpha, c :: rest =>
    (if prevAlpha then c.toLower else c.toUpper) :: titleGo c.isAlpha rest

/-- Python `str.title()`. -/
def pyTitle (s : String) : String := ⟨titleGo false s.data⟩

/-- Insert a comma every three digits from the right (`group3` works on the
reversed digit list). -/
def group3 : List Char → List Char
  | a :: b :: c :: d :: rest => a :: b :: c :: ',' :: group3 (d :: rest)
  | l => l

/-- Python `f"{n:,}"` for an int: decimal digits grouped in threes by
commas. -/
def fmtComma (n : Int) : String :=
  (if n < 0 then "-" else "") ++ ⟨(group3 (toString n.natAbs).data.reverse).reverse⟩

/-- Round `num / den` (with `den > 0`) to the nearest integer, ties to
even — the rounding of Python's `format(x, '.1f')` applied to the scaled
value (float arithmetic is modelled as exact rational arithmetic). -/
def roundHalfEven (num den : Int) : Int :=
  let q := num.fdiv den
  let r := num.fmod den
  if 2 * r < den then q
  else if den < 2 * r then q + 1
  else if q % 2 = 0 then q else q + 1

/-- Python `f"{(count / total) * 100:.1f}"` for `total > 0`, modelled as
the exact rational percentage rounded to one decimal place. -/
def fmtPct1 (count total : Int) : String :=
  let scaled := roundHalfEven (count * 1000) total
  (if scaled < 0 then "-" else "")
    ++ toString (scaled.natAbs / 10) ++ "." ++ toString (scaled.natAbs % 10)

/-- Concatenation of a list of strings (used to state the renderer
theorems). -/
def strJoin : List String → String
  | [] => ""
  | s :: rest => s ++ strJoin rest

/-- A run of `n` equals signs (`"=" * n`). -/
def eqBar (n : Nat) : String := ⟨List.replicate n '='⟩

/-- One chain entry of the registry `self.chains`. -/
structure Chain where
  name : String
  base_url : String
  description : String
deriving DecidableEq

/-- The registry `self.chains` built in `CronosCLI.__init__`, in insertion
order (EVM first, as the default). -/
def chains : List (String × Chain) :=
  [("evm", ⟨"Cronos EVM Chain", "https://rest.cronos.org/",
      "Cronos EVM-compatible chain for smart contracts and DeFi (DEFAULT)"⟩),
   ("pos", ⟨"Cronos POS Chain", "https://rest.mainnet.crypto.org/",
      "Cronos Proof-of-Stake chain for Cosmos SDK modules"⟩)]

/-- Association-list lookup in the chain registry. -/
def lookupChain (key : String) : List (String × Chain) → Option Chain
  | [] => none
  | (k, c) :: rest => if k = key then some c else lookupChain key rest

/-- Python `chain_key in self.chains` / `self.chains[chain_key]`. -/
def chainLookup (key : String) : Option Chain := lookupChain key chains

/-- The mutable session state of `CronosCLI`: the selected chain key and
the active base URL. -/
structure CliState where
  current_chain : String
  base_url : String
deriving DecidableEq

/-- The state after `CronosCLI.__init__`: `base_url` starts at the default
constructor argument, `current_chain` is set to `"evm"`, and
`_update_base_url` rewrites `base_url` to `chains["evm"]["base_url"]`,
which is the same string. -/
def initState : CliState := ⟨"evm", "https://rest.cronos.org/"⟩

/-- `CronosCLI.switch_chain`: when the key is registered, set
`current_chain` and refresh `base_url` via `_update_base_url`, returning
`True`; otherwise return `False` without touching the state. -/
def switch_chain (st : CliState) (key : String) : Bool × CliState :=
  match chainLookup key with
  | some c => (true, ⟨key, c.base_url⟩)
  | none => (false, st)

/-- `CronosCLI.get_current_chain_info`: `self.chains[self.current_chain]`
(`KeyError` when the current key is not registered). -/
def get_current_chain_info (st : CliState) : Except PyErr Chain :=
  match chainLookup st.current_chain with
  | some c => .ok c
  | none => .error .keyError

/-- The path-parameter substitution loop of `CronosCLI.make_request`: for
each supplied `(key, value)` pair, replace every occurrence of the token
consisting of the key between braces by the value (the values supplied by
the interactive loop are already strings, so `str(value)` is the value
itself).  A parameter with no supplied value is simply never substituted —
there is no missing-parameter check. -/
def buildPath (template : String) : List (String × String) → String
  | [] => template
  | (k, v) :: rest => buildPath (pyReplace template ("\x7b" ++ k ++ "\x7d") v) rest

/-- Error message printed by `display_menu` for non-numeric input. -/
def msgInvalidNumber : String := "❌ Please enter a valid number"

/-- Error message printed by `display_menu` for an out-of-range number. -/
def msgOutOfRange (n : Nat) : String :=
  "❌ Please enter a number between 1 and " ++ toString n

/-- The input-validation loop of `CronosCLI.display_menu`, run against a
finite sequence of input lines: each line is stripped and fed to `int`;
a parse failure re-prompts with `msgInvalidNumber`, an out-of-range value
re-prompts with `msgOutOfRange`, and a value in `[1, len(options)]`
returns the key at that 1-based position of the insertion order.  The
result collects the error messages printed and the selected key (`none`
when the input sequence is exhausted). -/
def display_menu (opts : List (String × String)) : List String → List String × Option String
  | [] => ([], none)
  | line :: rest =>
    match pyParseInt (pyStrip line) with
    | none =>
      let r := display_menu opts rest
      (msgInvalidNumber :: r.1, r.2)
    | some n =>
      if 1 ≤ n ∧ n ≤ (opts.length : Int) then
        ([], (opts.get? (n - 1).toNat).map Prod.fst)
      else
        let r := display_menu opts rest
        (msgOutOfRange opts.length :: r.1, r.2)

/-- `int(tally.get(key, "0"))` as used by `_format_tally`. -/
def pyIntField (tally : Json) (key : String) : Except PyErr Int :=
  match pyGet tally key (.str "0") with
  | .error e => .error e
  | .ok j => pyIntOfJson j

/-- `CronosCLI._format_tally`: parse the four vote counts (absent counts
default to the string "0"; a failing `int` cast raises), then either
render counts with percentages or report that no votes were cast. -/
def format_tally (tally : Json) : Except PyErr String :=
  match pyIntField tally "yes_count" with
  | .error e => .error e
  | .ok y =>
    match pyIntField tally "no_count" with
    | .error e => .error e
    | .ok n =>
      match pyIntField tally "abstain_count" with
      | .error e => .error e
      | .ok a =>
        match pyIntField tally "no_with_veto_count" with
        | .error e => .error e
        | .ok v =>
          let total := y + n + a + v
          if 0 < total then
            .ok ("🗳️  PROPOSAL TALLY RESULTS\n" ++ eqBar 40 ++ "\n"
              ++ "✅ Yes:     " ++ fmtComma y ++ " (" ++ fmtPct1 y total ++ "%)\n"
              ++ "❌ No:      " ++ fmtComma n ++ " (" ++ fmtPct1 n total ++ "%)\n"
              ++ "⏸️  Abstain: " ++ fmtComma a ++ " (" ++ fmtPct1 a total ++ "%)\n"
              ++ "🚫 Veto:    " ++ fmtComma v ++ " (" ++ fmtPct1 v total ++ "%)\n"
              ++ "\n📊 Total Votes: " ++ fmtComma total)
          else
            .ok ("🗳️  PROPOSAL TALLY RESULTS\n" ++ eqBar 40 ++ "\n" ++ "No votes cast yet")

/-- The amount formatting shared by `_format_balances` and
`_format_validators`: `int(amount)` rendered with thousands separators
above 1,000,000 and as `str(int(amount))` otherwise; when the cast raises,
the bare `except` falls back to the original value. -/
def renderAmount (amount : Json) : String :=
  match pyIntOfJson amount with
  | .ok k => if 1000000 < k then fmtComma k else toString k
  | .error _ => pyStr amount

/-- One line of `_format_balances` for one balance entry. -/
def balLine (b : Json) : Except PyErr String :=
  match pyGet b "denom" (.str "unknown") with
  | .error e => .error e
  | .ok denom =>
    match pyGet b "amount" (.str "0") with
    | .error e => .error e
    | .ok amount => .ok ("🪙 " ++ pyStr denom ++ ": " ++ renderAmount amount ++ "\n")

/-- The `for balance in balances` loop of `_format_balances`. -/
def balGo : List Json → String → Except PyErr String
  | [], acc => .ok acc
  | b :: rest, acc =>
    match balLine b with
    | .error e => .error e
    | .ok line => balGo rest (acc ++ line)

/-- `CronosCLI._format_balances`.  A truthy non-list `balances` value makes
the loop raise on its first element (`AttributeError` for the string
elements produced by iterating a string or a dict, `TypeError` for
non-iterables). -/
def format_balances (data : Json) : Except PyErr String :=
  match pyGet data "balances" (.arr []) with
  | .error e => .error e
  | .ok balances =>
    if pyTruthy balances = false then
      .ok ("💰 ACCOUNT BALANCES\n" ++ eqBar 30 ++ "\n" ++ "No balances found")
    else
      match balances with
      | .arr items => balGo items ("💰 ACCOUNT BALANCES\n" ++ eqBar 30 ++ "\n")
      | .str _ => .error .attributeError
      | .obj _ => .error .attributeError
      | _ => .error .typeError

/-- One line of `_format_proposals` for one proposal: the status string has
every occurrence of "PROPOSAL_STATUS_" removed and is then title-cased
(`.replace(...).title()` raises `AttributeError` on a non-string
status). -/
def propLine (p : Json) : Except PyErr String :=
  match pyGet p "id" (.str "unknown") with
  | .error e => .error e
  | .ok pid =>
    match pyGet p "status" (.str "unknown") with
    | .error e => .error e
    | .ok status =>
      match status with
      | .str s =>
        .ok ("📄 Proposal #" ++ pyStr pid ++ ": "
          ++ pyTitle (pyReplace s "PROPOSAL_STATUS_" "") ++ "\n")
      | _ => .error .attributeError

/-- The `for proposal in proposals[:5]` loop of `_format_proposals`. -/
def propGo : List Json → String → Except PyErr String
  | [], acc => .ok acc
  | p :: rest, acc =>
    match propLine p with
    | .error e => .error e
    | .ok line => propGo rest (acc ++ line)

/-- `CronosCLI._format_proposals`: first five proposals, plus a trailer
counting the remainder when more than five exist.  A truthy non-list
`proposals` value raises (`AttributeError` when sliceable to non-dict
elements, `TypeError` when slicing itself fails). -/
def format_proposals (data : Json) : Except PyErr String :=
  match pyGet data "proposals" (.arr []) with
  | .error e => .error e
  | .ok proposals =>
    if pyTruthy proposals = false then
      .ok ("📋 GOVERNANCE PROPOSALS\n" ++ eqBar 35 ++ "\n" ++ "No proposals found")
    else
      match proposals with
      | .arr items =>
        match propGo (items.take 5) ("📋 GOVERNANCE PROPOSALS\n" ++ eqBar 35 ++ "\n") with
        | .error e => .error e
        | .ok acc =>
          .ok (acc ++ (if 5 < items.length then
            "... and " ++ toString (items.length - 5) ++ " more proposals" else ""))
      | .str _ => .error .attributeError
      | _ => .error .typeError

/-- `v.get("status") == "BOND_STATUS_BONDED"` for one element of the
validator list (`AttributeError` on a non-dict element). -/
def isBonded (v : Json) : Except PyErr Bool :=
  match v with
  | .obj fs =>
    .ok (match jLookup fs "status" with
      | some (.str s) => s == "BOND_STATUS_BONDED"
      | _ => false)
  | _ => .error .attributeError

/-- The list comprehension of `_format_validators` selecting bonded
validators, evaluated element by element. -/
def activeFilter : List Json → Except PyErr (List Json)
  | [] => .ok []
  | v :: rest =>
    match isBonded v with
    | .error e => .error e
    | .ok b =>
      match activeFilter rest with
      | .error e => .error e
      | .ok tl => .ok (if b then v :: tl else tl)

/-- One numbered line of `_format_validators` for one active validator. -/
def valLine (i : Nat) (v : Json) : Except PyErr String :=
  match pyGet v "description" (.obj []) with
  | .error e => .error e
  | .ok desc =>
    match pyGet desc "moniker" (.str "Unknown") with
    | .error e => .error e
    | .ok moniker =>
      match pyGet v "tokens" (.str "0") with
      | .error e => .error e
      | .ok tokens =>
        .ok (toString (i + 1) ++ ". " ++ pyStr moniker ++ " - "
          ++ renderAmount tokens ++ " tokens\n")

/-- The `for i, validator in enumerate(active_validators[:3])` loop of
`_format_validators`. -/
def valGo (i : Nat) : List Json → String → Except PyErr String
  | [], acc => .ok acc
  | v :: rest, acc =>
    match valLine i v with
    | .error e => .error e
    | .ok line => valGo (i + 1) rest (acc ++ line)

/-- `CronosCLI._format_validators`. -/
def format_validators (data : Json) : Except PyErr String :=
  match pyGet data "validators" (.arr []) with
  | .error e => .error e
  | .ok validators =>
    if pyTruthy validators = false then
      .ok ("⚡ VALIDATORS\n" ++ eqBar 20 ++ "\n" ++ "No validators found")
    else
      match validators with
      | .arr items =>
        match activeFilter items with
        | .error e => .error e
        | .ok active =>
          valGo 0 (active.take 3)
            ("⚡ VALIDATORS\n" ++ eqBar 20 ++ "\n"
              ++ "🟢 Active Validators: " ++ toString active.length ++ "\n"
              ++ "📊 Total Validators: " ++ toString items.length ++ "\n\n")
      | .str _ => .error .attributeError
      | .obj _ => .error .attributeError
      | _ => .error .typeError

/-- `CronosCLI._format_pool`: both token counts are cast to `int` inside a
`try`; the bare `except` prints the raw values without totals or
percentage. -/
def format_pool (data : Json) : Except PyErr String :=
  match pyGet data "pool" (.obj []) with
  | .error e => .error e
  | .ok pool =>
    match pyGet pool "bonded_tokens" (.str "0") with
    | .error e => .error e
    | .ok bonded =>
      match pyGet pool "not_bonded_tokens" (.str "0") with
      | .error e => .error e
      | .ok notBonded =>
        match pyIntOfJson bonded, pyIntOfJson notBonded with
        | .ok b, .ok nb =>
          .ok ("🏊 STAKING POOL\n" ++ eqBar 20 ++ "\n"
            ++ "🔒 Bonded:     " ++ fmtComma b ++ "\n"
            ++ "🔓 Unbonded:   " ++ fmtComma nb ++ "\n"
            ++ "📊 Total:      " ++ fmtComma (b + nb) ++ "\n"
            ++ (if 0 < b + nb then "📈 Bonded %:   " ++ fmtPct1 b (b + nb) ++ "%" else ""))
        | _, _ =>
          .ok ("🏊 STAKING POOL\n" ++ eqBar 20 ++ "\n"
            ++ "🔒 Bonded:     " ++ pyStr bonded ++ "\n"
            ++ "🔓 Unbonded:   " ++ pyStr notBonded)

/-- One `denom: amount` line shared by `_format_rewards` and
`_format_commission`. -/
def rewLine (r : Json) : Except PyErr String :=
  match pyGet r "denom" (.str "unknown") with
  | .error e => .error e
  | .ok denom =>
    match pyGet r "amount" (.str "0") with
    | .error e => .error e
    | .ok amount => .ok ("🪙 " ++ pyStr denom ++ ": " ++ pyStr amount ++ "\n")

/-- The reward/commission entry loop. -/
def rewGo : List Json → String → Except PyErr String
  | [], acc => .ok acc
  | r :: rest, acc =>
    match rewLine r with
    | .error e => .error e
    | .ok line => rewGo rest (acc ++ line)

/-- `CronosCLI._format_rewards`: reads `data["total"]` (the `rewards` key
is fetched but unused beyond that). -/
def format_rewards (data : Json) : Except PyErr String :=
  match pyGet data "rewards" (.arr []) with
  | .error e => .error e
  | .ok _ =>
    match pyGet data "total" (.arr []) with
    | .error e => .error e
    | .ok total =>
      if pyTruthy total = false then
        .ok ("🎁 DELEGATION REWARDS\n" ++ eqBar 25 ++ "\n" ++ "No rewards available")
      else
        match total with
        | .arr items => rewGo items ("🎁 DELEGATION REWARDS\n" ++ eqBar 25 ++ "\n")
        | .str _ => .error .attributeError
        | .obj _ => .error .attributeError
        | _ => .error .typeError

/-- `CronosCLI._format_commission`: reads `commission.commission`. -/
def format_commission (data : Json) : Except PyErr String :=
  match pyGet data "commission" (.obj []) with
  | .error e => .error e
  | .ok commission =>
    match pyGet commission "commission" (.arr []) with
    | .error e => .error e
    | .ok camt =>
      if pyTruthy camt = false then
        .ok ("💼 VALIDATOR COMMISSION\n" ++ eqBar 30 ++ "\n" ++ "No commission data")
      else
        match camt with
        | .arr items => rewGo items ("💼 VALIDATOR COMMISSION\n" ++ eqBar 30 ++ "\n")
        | .str _ => .error .attributeError
        | .obj _ => .error .attributeError
        | _ => .error .typeError

/-- `CronosCLI._format_block`: `block.header.{height,time,proposer_address}`
with the proposer sliced to its first 20 characters (`[:20]` also slices a
list, which is then shown via `repr`; a non-sliceable proposer raises
`TypeError`). -/
def format_block (data : Json) : Except PyErr String :=
  match pyGet data "block" (.obj []) with
  | .error e => .error e
  | .ok block =>
    match pyGet block "header" (.obj []) with
    | .error e => .error e
    | .ok header =>
      match pyGet header "height" (.str "unknown") with
      | .error e => .error e
      | .ok height =>
        match pyGet header "time" (.str "unknown") with
        | .error e => .error e
        | .ok time =>
          match pyGet header "proposer_address" (.str "unknown") with
          | .error e => .error e
          | .ok proposer =>
            match proposer with
            | .str s =>
              .ok ("🧱 BLOCK INFORMATION\n" ++ eqBar 25 ++ "\n"
                ++ "📏 Height:    " ++ pyStr height ++ "\n"
                ++ "⏰ Time:      " ++ pyStr time ++ "\n"
                ++ "👤 Proposer:  " ++ String.mk (s.data.take 20) ++ "...")
            | .arr xs =>
              .ok ("🧱 BLOCK INFORMATION\n" ++ eqBar 25 ++ "\n"
                ++ "📏 Height:    " ++ pyStr height ++ "\n"
                ++ "⏰ Time:      " ++ pyStr time ++ "\n"
                ++ "👤 Proposer:  " ++ pyRepr (.arr (xs.take 20)) ++ "...")
            | _ => .error .typeError

/-- `CronosCLI._format_node_info`: reads
`node_info.application_version.{name,version}` and the display name of the
currently selected chain from the session state. -/
def format_node_info (st : CliState) (data : Json) : Except PyErr String :=
  match pyGet data "node_info" (.obj []) with
  | .error e => .error e
  | .ok nodeInfo =>
    match pyGet nodeInfo "application_version" (.obj []) with
    | .error e => .error e
    | .ok av =>
      match pyGet av "version" (.str "unknown") with
      | .error e => .error e
      | .ok version =>
        match pyGet av "name" (.str "unknown") with
        | .error e => .error e
        | .ok nm =>
          match get_current_chain_info st with
          | .error e => .error e
          | .ok chain =>
            .ok ("🖥️  NODE INFORMATION\n" ++ eqBar 25 ++ "\n"
              ++ "📦 Name:    " ++ pyStr nm ++ "\n"
              ++ "🏷️  Version: " ++ pyStr version ++ "\n"
              ++ "🌐 Network: " ++ chain.name)

/-- `CronosCLI.format_response`: the falsy guard, then the first-match
dispatch over the recognized top-level keys in source order, with the
pretty-printed JSON dump as the fallback. -/
def format_response (st : CliState) (data : Json) : Except PyErr String :=
  if pyTruthy data = false then .ok "No data received"
  else
    match pyIn "tally" data with
    | .error e => .error e
    | .ok b1 =>
      if b1 then
        match pySubscr data "tally" with
        | .error e => .error e
        | .ok t => format_tally t
      else
        match pyIn "balances" data with
        | .error e => .error e
        | .ok b2 =>
          if b2 then format_balances data
          else
            match pyIn "proposals" data with
            | .error e => .error e
            | .ok b3 =>
              if b3 then format_proposals data
              else
                match pyIn "validators" data with
                | .error e => .error e
                | .ok b4 =>
                  if b4 then format_validators data
                  else
                    match pyIn "pool" data with
                    | .error e => .error e
                    | .ok b5 =>
                      if b5 then format_pool data
                      else
                        match pyIn "rewards" data with
                        | .error e => .error e
                        | .ok b6 =>
                          if b6 then format_rewards data
                          else
                            match pyIn "commission" data with
                            | .error e => .error e
                            | .ok b7 =>
                              if b7 then format_commission data
                              else
                                match pyIn "block" data with
                                | .error e => .error e
                                | .ok b8 =>
                                  if b8 then format_block data
                                  else
                                    match pyIn "node_info" data with
                                    | .error e => .error e
                                    | .ok b9 =>
                                      if b9 then format_node_info st data
                                      else .ok (dumps data)

/-- The claim-level amount rendering of `_format_balances`: thousands
separators above 1,000,000, the canonical decimal of the parsed integer
otherwise, and the original string verbatim when `int` fails. -/
def amountSpec (a : String) : String :=
  match pyParseInt a with
  | some k => if 1000000 < k then fmtComma k else toString k
  | none => a

/-- A balances entry as decoded from JSON. -/
def mkBal (p : String × String) : Json :=
  .obj [("denom", .str p.1), ("amount", .str p.2)]

/-- A proposals entry as decoded from JSON. -/
def mkProp (p : String × String) : Json :=
  .obj [("id", .str p.1), ("status", .str p.2)]

/-- A character list free of both brace characters. -/
def braceFree (l : List Char) : Bool := l.all fun c => !(c == '\x7b' || c == '\x7d')

/-- One piece of a URL template: a literal segment or a named placeholder
token.  The registry's path templates all decompose into such pieces. -/
inductive Seg where
  | lit (s : String) : Seg
  | tok (name : String) : Seg
deriving DecidableEq

/-- The characters of one template piece (a token named k reads as k
between the two braces). -/
def segChars : Seg → List Char
  | .lit s => s.data
  | .tok k => '\x7b' :: (k.data ++ ['\x7d'])

/-- The characters of a whole template. -/
def assembleChars : List Seg → List Char
  | [] => []
  | sg :: rest => segChars sg ++ assembleChars rest

/-- Well-formedness of a template piece: literal segments and token names
are brace-free. -/
def WfSeg : Seg → Bool
  | .lit s => braceFree s.data
  | .tok k => braceFree k.data

/-- Token-level substitution: every token named k becomes the literal v;
everything else is untouched. -/
def substTok (k v : String) : List Seg → List Seg :=
  List.map (fun sg => match sg with
    | .tok q => if q = k then .lit v else .tok q
    | other => other)

/-- The decomposition of the registry's balances path template. -/
def balSegs : List Seg := [.lit "cosmos/bank/v1beta1/balances/", .tok "address"]

example : pyParseInt "  70 " = some 70 := by decide
example : pyParseInt "abc" = none := by decide
example : pyParseInt "+500" = some 500 := by decide
example : fmtComma 2000000 = "2,000,000" := by decide
example : fmtPct1 70 100 = "70.0" := by decide
example : fmtPct1 1 3 = "33.3" := by decide
example : pyTitle "VOTING_PERIOD" = "Voting_Period" := by decide
example : pyReplace "PROPOSAL_STATUS_PASSED" "PROPOSAL_STATUS_" "" = "PASSED" := rfl
example : dumps (.obj []) = "\x7b\x7d" := rfl
example : dumps (.obj [("a", .num 1)]) = "\x7b\n  \"a\": 1\n\x7d" := rfl

/-- When the decoded object has a "tally" key, `format_response` hands its
value to `_format_tally` (and any error from the renderer propagates). -/
theorem format_response_tally (st : CliState) (fs : List (String × Json)) (v : Json)
    (h : jLookup fs "tally" = some v) :
    format_response st (.obj fs) = format_tally v := by
  cases fs with
  | nil => simp [jLookup] at h
  | cons p rest =>
    have hk : hasKey (p :: rest) "tally" = true := by simp [hasKey, h]
    simp [format_response, pyTruthy, pyIn, hk, pySubscr, h]

/-- `renderAmount` on a string amount agrees with the claim-level
rendering rule. -/
theorem renderAmount_str (a : String) : renderAmount (.str a) = amountSpec a := by
  cases h : pyParseInt a <;> simp [renderAmount, pyIntOfJson, amountSpec, pyStr, h]

/-- The balances loop over well-formed entries produces one line per
entry. -/
theorem balGo_map (items : List (String × String)) : ∀ acc : String,
    balGo (items.map mkBal) acc
      = .ok (acc ++ strJoin (items.map (fun p => "🪙 " ++ p.1 ++ ": " ++ amountSpec p.2 ++ "\n"))) := by
  induction items with
  | nil => intro acc; simp [balGo, strJoin, String.append_empty]
  | cons hd tl ih =>
    intro acc
    obtain ⟨d, a⟩ := hd
    have hline : balLine (mkBal (d, a)) = .ok ("🪙 " ++ d ++ ": " ++ renderAmount (.str a) ++ "\n") := rfl
    simp only [List.map_cons, balGo, hline, strJoin, ih, renderAmount_str, String.append_assoc]

/-- The proposals loop over well-formed entries produces one line per
entry. -/
theorem propGo_map (items : List (String × String)) : ∀ acc : String,
    propGo (items.map mkProp) acc
      = .ok (acc ++ strJoin (items.map (fun p =>
          "📄 Proposal #" ++ p.1 ++ ": " ++ pyTitle (pyReplace p.2 "PROPOSAL_STATUS_" "") ++ "\n"))) := by
  induction items with
  | nil => intro acc; simp [propGo, strJoin, String.append_empty]
  | cons hd tl ih =>
    intro acc
    obtain ⟨i, s⟩ := hd
    have hline : propLine (mkProp (i, s))
        = .ok ("📄 Proposal #" ++ i ++ ": " ++ pyTitle (pyReplace s "PROPOSAL_STATUS_" "") ++ "\n") := rfl
    simp only [List.map_cons, propGo, hline, strJoin, ih, String.append_assoc]

/-- Claim C10: for the empty JSON object (and every falsy decoded value)
`format_response` returns the fixed string "No data received" instead of
falling through to the pretty-printer, so an empty object is never
rendered as the two-character brace string. -/
theorem empty_response_message :
    (∀ (st : CliState) (j : Json), pyTruthy j = false →
      format_response st j = .ok "No data received") ∧
    format_response initState (.obj []) = .ok "No data received" ∧
    "No data received" ≠ dumps (.obj []) := by
  refine ⟨?_, rfl, by decide⟩
  intro st j h
  simp [format_response, h]

/-- Witness for C10 at the empty object. -/
theorem empty_response_message_witness :
    pyTruthy (Json.obj []) = false ∧
    format_response initState (.obj []) = .ok "No data received" :=
  ⟨rfl, empty_response_message.1 initState (.obj []) rfl⟩

/-- Claim C5: switching to an unregistered chain key fails and leaves the
state (current chain and base URL) unchanged; switching to either
registered key succeeds and selects that key. -/
theorem switch_chain_spec :
    (∀ (st : CliState) (key : String), chainLookup key = none →
      switch_chain st key = (false, st)) ∧
    (∀ (st : CliState) (key : String), key = "evm" ∨ key = "pos" →
      (switch_chain st key).1 = true ∧ (switch_chain st key).2.current_chain = key) := by
  constructor
  · intro st key h
    simp [switch_chain, h]
  · intro st key h
    rcases h with h | h <;> subst h <;> exact ⟨rfl, rfl⟩

/-- Witness for C5: an unregistered key and a registered key. -/
theorem switch_chain_spec_witness :
    chainLookup "osmosis" = none ∧
    switch_chain initState "osmosis" = (false, initState) ∧
    (switch_chain initState "pos").1 = true ∧
    (switch_chain initState "pos").2.current_chain = "pos" :=
  ⟨rfl, switch_chain_spec.1 initState "osmosis" rfl,
    (switch_chain_spec.2 initState "pos" (Or.inr rfl)).1,
    (switch_chain_spec.2 initState "pos" (Or.inr rfl)).2⟩

/-- The session-state invariant of claim C9. -/
def ChainInv (st : CliState) : Prop :=
  (st.current_chain = "evm" ∨ st.current_chain = "pos") ∧
  ∃ c, chainLookup st.current_chain = some c ∧ st.base_url = c.base_url

/-- A successful registry lookup only happens at the two registered
keys. -/
theorem chainLookup_keys {key : String} {c : Chain} (h : chainLookup key = some c) :
    key = "evm" ∨ key = "pos" := by
  by_cases h1 : "evm" = key
  · exact Or.inl h1.symm
  · by_cases h2 : "pos" = key
    · exact Or.inr h2.symm
    · simp [chainLookup, lookupChain, chains, h1, h2] at h

/-- Claim C9: after construction and after every `switch_chain` call
(successful or not), `base_url` equals the registered base URL of
`current_chain`, and `current_chain` is one of the two registered keys. -/
theorem chain_invariant :
    ChainInv initState ∧
    ∀ (st : CliState) (key : String), ChainInv st → ChainInv (switch_chain st key).2 := by
  constructor
  · exact ⟨Or.inl rfl, ⟨_, rfl, rfl⟩⟩
  · intro st key h
    cases hc : chainLookup key with
    | none => simpa [switch_chain, hc] using h
    | some c =>
      refine ⟨?_, c, ?_, ?_⟩ <;> simp [switch_chain, hc]
      exact chainLookup_keys hc

/-- Witness for C9: the invariant after a concrete switch. -/
theorem chain_invariant_witness : ChainInv (switch_chain initState "pos").2 :=
  chain_invariant.2 initState "pos" chain_invariant.1

/-- A brace-free character list contains neither brace character. -/
theorem braceFree_chars {l : List Char} (h : braceFree l = true) :
    ∀ c ∈ l, c ≠ '\x7b' ∧ c ≠ '\x7d' := by
  intro c hc
  have := List.all_eq_true.mp h c hc
  constructor <;> intro he <;> subst he <;> simp at this

/-- Two close-brace-terminated names standing at the same position can
only match when the names are equal (the close brace acts as an
unmistakable terminator). -/
theorem names_eq_of_prefix : ∀ (a b rest : List Char),
    '\x7d' ∉ a → '\x7d' ∉ b →
    a ++ ['\x7d'] <+: b ++ ('\x7d' :: rest) → a = b := by
  intro a
  induction a with
  | nil =>
    intro b rest _ hb hp
    cases b with
    | nil => rfl
    | cons d b' =>
      rw [List.nil_append, List.cons_append] at hp
      rcases List.cons_prefix_cons.mp hp with ⟨h1, -⟩
      exact absurd (show '\x7d' ∈ d :: b' by rw [h1]; exact List.mem_cons_self d b') hb
  | cons c a' ih =>
    intro b rest ha hb hp
    cases b with
    | nil =>
      rw [List.cons_append, List.nil_append] at hp
      rcases List.cons_prefix_cons.mp hp with ⟨h1, -⟩
      exact absurd (show '\x7d' ∈ c :: a' by rw [← h1]; exact List.mem_cons_self c a') ha
    | cons d b' =>
      rw [List.cons_append, List.cons_append] at hp
      rcases List.cons_prefix_cons.mp hp with ⟨rfl, hp2⟩
      have ha' : '\x7d' ∉ a' := fun hm => ha (List.mem_cons_of_mem _ hm)
      have hb' : '\x7d' ∉ b' := fun hm => hb (List.mem_cons_of_mem _ hm)
      rw [ih b' rest ha' hb' hp2]

/-- The pattern of a token named k never matches at the start of a token
named q when the names differ. -/
theorem tok_no_match (k q : String) (hk : braceFree k.data = true)
    (hq : braceFree q.data = true) (hne : q ≠ k) (rest : List Char) :
    ¬ ('\x7b' :: (k.data ++ ['\x7d'])).isPrefixOf
        ('\x7b' :: ((q.data ++ ['\x7d']) ++ rest)) := by
  intro hcon
  rw [List.isPrefixOf_iff_prefix] at hcon
  rw [List.append_assoc, List.singleton_append] at hcon
  rcases List.cons_prefix_cons.mp hcon with ⟨-, h2⟩
  have hknot : '\x7d' ∉ k.data := fun hm => (braceFree_chars hk _ hm).2 rfl
  have hqnot : '\x7d' ∉ q.data := fun hm => (braceFree_chars hq _ hm).2 rfl
  have hdata := names_eq_of_prefix k.data q.data rest hknot hqnot h2
  exact hne (by cases k; cases q; exact congrArg String.mk hdata.symm)

/-- The replace scan copies any run of characters that cannot start a
token occurrence. -/
theorem replGo_copy (pt rep : List Char) : ∀ (seg rest : List Char) (fuel : Nat),
    (∀ c ∈ seg, c ≠ '\x7b') → seg.length ≤ fuel →
    replGo fuel ('\x7b' :: pt) rep (seg ++ rest)
      = seg ++ replGo (fuel - seg.length) ('\x7b' :: pt) rep rest := by
  intro seg
  induction seg with
  | nil => intro rest fuel _ _; simp
  | cons c seg' ih =>
    intro rest fuel hb hf
    cases fuel with
    | zero => simp at hf
    | succ f =>
      have hpre : ¬ ('\x7b' :: pt).isPrefixOf (c :: (seg' ++ rest)) := by
        intro hcon
        rw [List.isPrefixOf_iff_prefix] at hcon
        rcases List.cons_prefix_cons.mp hcon with ⟨h1, -⟩
        exact hb c (List.mem_cons_self c seg') h1.symm
      show replGo (f + 1) ('\x7b' :: pt) rep (c :: (seg' ++ rest)) = _
      simp only [replGo]
      rw [if_neg hpre]
      have hf' : seg'.length ≤ f := by simpa using hf
      rw [ih rest f (fun d hd => hb d (List.mem_cons_of_mem c hd)) hf']
      simp [Nat.succ_sub_succ]

/-- The replace scan consumes an occurrence of the pattern whole and
emits the replacement. -/
theorem replGo_match (pt rep rest : List Char) (f : Nat) :
    replGo (f + 1) ('\x7b' :: pt) rep (('\x7b' :: pt) ++ rest)
      = rep ++ replGo f ('\x7b' :: pt) rep rest := by
  have hpre : ('\x7b' :: pt).isPrefixOf ('\x7b' :: (pt ++ rest)) = true :=
    List.isPrefixOf_iff_prefix.mpr (List.prefix_append ('\x7b' :: pt) rest)
  show replGo (f + 1) ('\x7b' :: pt) rep ('\x7b' :: (pt ++ rest)) = _
  simp only [replGo]
  rw [if_pos hpre]
  simp [List.drop_left]

/-- One `str.replace` sweep over a well-formed template substitutes
exactly the tokens bearing the replaced name. -/
theorem replGo_assemble (k v : String) (hk : braceFree k.data = true) :
    ∀ (segs : List Seg) (fuel : Nat),
      (∀ sg ∈ segs, WfSeg sg = true) →
      (assembleChars segs).length ≤ fuel →
      replGo fuel ('\x7b' :: (k.data ++ ['\x7d'])) v.data (assembleChars segs)
        = assembleChars (substTok k v segs) := by
  intro segs
  induction segs with
  | nil => intro fuel _ _; cases fuel <;> simp [assembleChars, substTok, replGo]
  | cons sg rest ih =>
    intro fuel hwf hlen
    have hwf' : ∀ t ∈ rest, WfSeg t = true := fun t ht => hwf t (List.mem_cons_of_mem sg ht)
    cases sg with
    | lit s =>
      have hs : braceFree s.data = true := hwf _ (List.mem_cons_self _ _)
      have hlen1 : s.data.length ≤ fuel := by
        simp [assembleChars, segChars] at hlen ⊢
        omega
      show replGo fuel ('\x7b' :: (k.data ++ ['\x7d'])) v.data
          (s.data ++ assembleChars rest) = _
      rw [replGo_copy _ _ s.data (assembleChars rest) fuel
        (fun c hc => (braceFree_chars hs c hc).1) hlen1]
      rw [ih (fuel - s.data.length) hwf' (by simp [assembleChars, segChars] at hlen ⊢; omega)]
      rfl
    | tok q =>
      have hq : braceFree q.data = true := hwf _ (List.mem_cons_self _ _)
      cases fuel with
      | zero => simp [assembleChars, segChars] at hlen
      | succ f =>
        by_cases hqk : q = k
        · subst hqk
          show replGo (f + 1) ('\x7b' :: (q.data ++ ['\x7d'])) v.data
              (('\x7b' :: (q.data ++ ['\x7d'])) ++ assembleChars rest) = _
          rw [replGo_match]
          rw [ih f hwf' (by simp [assembleChars, segChars] at hlen ⊢; omega)]
          simp [substTok, assembleChars, segChars]
        · have hpre := tok_no_match k q hk hq hqk (assembleChars rest)
          show replGo (f + 1) ('\x7b' :: (k.data ++ ['\x7d'])) v.data
              ('\x7b' :: ((q.data ++ ['\x7d']) ++ assembleChars rest)) = _
          simp only [replGo]
          rw [if_neg hpre]
          rw [replGo_copy _ _ (q.data ++ ['\x7d']) (assembleChars rest) f
            (by
              intro c hc
              rcases List.mem_append.mp hc with hc1 | hc1
              · exact (braceFree_chars hq c hc1).1
              · simp at hc1
                subst hc1
                decide)
            (by simp [assembleChars, segChars] at hlen ⊢; omega)]
          rw [ih (f - (q.data ++ ['\x7d']).length) hwf'
            (by simp [assembleChars, segChars] at hlen ⊢; omega)]
          simp [substTok, assembleChars, segChars, hqk]

/-- Substituting a brace-free value preserves template
well-formedness. -/
theorem substTok_wf (k v : String) (hv : braceFree v.data = true) (segs : List Seg)
    (h : ∀ sg ∈ segs, WfSeg sg = true) : ∀ sg ∈ substTok k v segs, WfSeg sg = true := by
  intro sg hsg
  simp [substTok] at hsg
  obtain ⟨sg0, hsg0, rfl⟩ := hsg
  cases sg0 with
  | lit s => exact h _ hsg0
  | tok q =>
    by_cases hqk : q = k
    · simpa [hqk, WfSeg] using hv
    · simpa [hqk, WfSeg] using h _ hsg0

/-- The parameter loop of `make_request` acts on a well-formed template
as the fold of token-level substitutions. -/
theorem buildPath_assemble : ∀ (params : List (String × String)) (segs : List Seg),
    (∀ sg ∈ segs, WfSeg sg = true) →
    (∀ p ∈ params, braceFree p.1.data = true ∧ braceFree p.2.data = true) →
    buildPath ⟨assembleChars segs⟩ params
      = ⟨assembleChars (params.foldl (fun sg p => substTok p.1 p.2 sg) segs)⟩ := by
  intro params
  induction params with
  | nil => intro segs _ _; rfl
  | cons p ps ih =>
    intro segs hwf hp
    obtain ⟨k, v⟩ := p
    have hk : braceFree k.data = true := (hp _ (List.mem_cons_self _ _)).1
    have hv : braceFree v.data = true := (hp _ (List.mem_cons_self _ _)).2
    have hpat : ("\x7b" ++ k ++ "\x7d").data = '\x7b' :: (k.data ++ ['\x7d']) := by
      rw [String.data_append, String.data_append]
      rfl
    have hrepl : pyReplace ⟨assembleChars segs⟩ ("\x7b" ++ k ++ "\x7d") v
        = ⟨assembleChars (substTok k v segs)⟩ := by
      rw [pyReplace, hpat]
      rw [if_neg (by simp)]
      exact congrArg String.mk (replGo_assemble k v hk segs _ hwf (le_refl _))
    show buildPath (pyReplace ⟨assembleChars segs⟩ ("\x7b" ++ k ++ "\x7d") v) ps = _
    rw [hrepl]
    exact ih (substTok k v segs) (substTok_wf k v hv segs hwf)
      (fun q hq => hp q (List.mem_cons_of_mem _ hq))

/-- A token whose name is bound by no parameter survives the whole
parameter fold. -/
theorem tok_mem_foldl (k : String) : ∀ (params : List (String × String)) (segs : List Seg),
    (∀ p ∈ params, p.1 ≠ k) → Seg.tok k ∈ segs →
    Seg.tok k ∈ params.foldl (fun sg p => substTok p.1 p.2 sg) segs := by
  intro params
  induction params with
  | nil => intro segs _ h; exact h
  | cons p ps ih =>
    intro segs hne hmem
    have h1 : p.1 ≠ k := hne p (List.mem_cons_self _ _)
    apply ih (substTok p.1 p.2 segs) (fun q hq => hne q (List.mem_cons_of_mem _ hq))
    simp only [substTok]
    refine List.mem_map.mpr ⟨Seg.tok k, hmem, ?_⟩
    exact if_neg (fun he => h1 he.symm)

/-- A substring of a list is a substring of any right extension. -/
theorem hasSubstr_append_right (pat : List Char) : ∀ (x a : List Char),
    hasSubstr pat a = true → hasSubstr pat (x ++ a) = true := by
  intro x
  induction x with
  | nil => intro a h; exact h
  | cons c x' ih =>
    intro a h
    show hasSubstr pat (c :: (x' ++ a)) = true
    rw [hasSubstr]
    simp [ih a h]

/-- A template containing a token named k contains the three-part token
text verbatim. -/
theorem tok_substr (k : String) : ∀ segs : List Seg, Seg.tok k ∈ segs →
    hasSubstr ('\x7b' :: (k.data ++ ['\x7d'])) (assembleChars segs) = true := by
  intro segs
  induction segs with
  | nil => intro h; simp at h
  | cons sg rest ih =>
    intro hmem
    rcases List.mem_cons.mp hmem with heq | hmem'
    · subst heq
      show hasSubstr ('\x7b' :: (k.data ++ ['\x7d']))
          ('\x7b' :: ((k.data ++ ['\x7d']) ++ assembleChars rest)) = true
      rw [hasSubstr]
      have hp : ('\x7b' :: (k.data ++ ['\x7d'])).isPrefixOf
          ('\x7b' :: ((k.data ++ ['\x7d']) ++ assembleChars rest)) :=
        List.isPrefixOf_iff_prefix.mpr (List.prefix_append _ _)
      simp [hp]
    · exact hasSubstr_append_right _ (segChars sg) _ (ih hmem')

/-- Claim C4 (amended): for every template (a sequence of brace-free
literal segments and named tokens) and every parameter mapping with
brace-free names and values, the substitution loop of `make_request`
replaces, in mapping order, every token bearing a supplied name by that
parameter's value; a parameter with no supplied value never fails — its
token text remains verbatim in the produced path; and the registry's
balances template with address "cro1abc" yields the spec's path. -/
theorem buildPath_substitution :
    (∀ (segs : List Seg) (params : List (String × String)),
      (∀ sg ∈ segs, WfSeg sg = true) →
      (∀ p ∈ params, braceFree p.1.data = true ∧ braceFree p.2.data = true) →
      buildPath ⟨assembleChars segs⟩ params
        = ⟨assembleChars (params.foldl (fun sg p => substTok p.1 p.2 sg) segs)⟩)
  ∧ (∀ (segs : List Seg) (params : List (String × String)) (k : String),
      (∀ sg ∈ segs, WfSeg sg = true) →
      (∀ p ∈ params, braceFree p.1.data = true ∧ braceFree p.2.data = true) →
      (∀ p ∈ params, p.1 ≠ k) → Seg.tok k ∈ segs →
      hasSubstr ('\x7b' :: (k.data ++ ['\x7d']))
        (buildPath ⟨assembleChars segs⟩ params).data = true)
  ∧ (∀ v : String, buildPath "cosmos/bank/v1beta1/balances/\x7baddress\x7d" [("address", v)]
      = "cosmos/bank/v1beta1/balances/" ++ v)
  ∧ buildPath "cosmos/bank/v1beta1/balances/\x7baddress\x7d" [("address", "cro1abc")]
      = "cosmos/bank/v1beta1/balances/cro1abc" := by
  refine ⟨fun segs params hw hp => buildPath_assemble params segs hw hp, ?_, ?_, rfl⟩
  · intro segs params k hw hp hne hmem
    rw [buildPath_assemble params segs hw hp]
    exact tok_substr k _ (tok_mem_foldl k params segs hne hmem)
  · intro v
    cases v with
    | mk l =>
      have h1 : buildPath "cosmos/bank/v1beta1/balances/\x7baddress\x7d" [("address", ⟨l⟩)]
          = String.mk ("cosmos/bank/v1beta1/balances/".data ++ (l ++ [])) := rfl
      have h2 : "cosmos/bank/v1beta1/balances/" ++ String.mk l
          = String.mk ("cosmos/bank/v1beta1/balances/".data ++ l) := rfl
      rw [h1, h2, List.append_nil]

/-- Witness for C4: the balances template decomposition with its address
substituted, and an unrelated parameter leaving the address token
verbatim. -/
theorem buildPath_substitution_witness :
    buildPath ⟨assembleChars balSegs⟩ [("address", "cro1abc")]
      = ⟨assembleChars (substTok "address" "cro1abc" balSegs)⟩ ∧
    hasSubstr ('\x7b' :: ("address".data ++ ['\x7d']))
      (buildPath ⟨assembleChars balSegs⟩ [("delegator", "cro1xyz")]).data = true :=
  ⟨buildPath_substitution.1 balSegs [("address", "cro1abc")] (by decide) (by decide),
   buildPath_substitution.2.1 balSegs [("delegator", "cro1xyz")] "address"
     (by decide) (by decide) (by decide) (by decide)⟩

/-- Counterexample to C4 as stated: with the required "address" parameter
unsupplied, the path is built without any failure and the placeholder
token remains verbatim in the result (there is no MissingParameter check
in `make_request`). -/
theorem buildPath_missing_param_no_error :
    buildPath "cosmos/bank/v1beta1/balances/\x7baddress\x7d" []
      = "cosmos/bank/v1beta1/balances/\x7baddress\x7d" ∧
    hasSubstr "\x7baddress\x7d".data
      (buildPath "cosmos/bank/v1beta1/balances/\x7baddress\x7d" []).data = true :=
  ⟨rfl, rfl⟩

/-- Claim C2: with the four counts parsing as integers (absent counts
default to "0"), a positive total renders each category with its
thousands-separated count and one-decimal percentage of the total, and a
non-positive total renders the no-votes line. -/
theorem tally_percentages (tfs : List (String × Json)) (y n a v : Int)
    (hy : pyIntField (.obj tfs) "yes_count" = .ok y)
    (hn : pyIntField (.obj tfs) "no_count" = .ok n)
    (ha : pyIntField (.obj tfs) "abstain_count" = .ok a)
    (hv : pyIntField (.obj tfs) "no_with_veto_count" = .ok v) :
    (0 < y + n + a + v →
      format_tally (.obj tfs) = .ok ("🗳️  PROPOSAL TALLY RESULTS\n" ++ eqBar 40 ++ "\n"
        ++ "✅ Yes:     " ++ fmtComma y ++ " (" ++ fmtPct1 y (y + n + a + v) ++ "%)\n"
        ++ "❌ No:      " ++ fmtComma n ++ " (" ++ fmtPct1 n (y + n + a + v) ++ "%)\n"
        ++ "⏸️  Abstain: " ++ fmtComma a ++ " (" ++ fmtPct1 a (y + n + a + v) ++ "%)\n"
        ++ "🚫 Veto:    " ++ fmtComma v ++ " (" ++ fmtPct1 v (y + n + a + v) ++ "%)\n"
        ++ "\n📊 Total Votes: " ++ fmtComma (y + n + a + v))) ∧
    (y + n + a + v ≤ 0 →
      format_tally (.obj tfs)
        = .ok ("🗳️  PROPOSAL TALLY RESULTS\n" ++ eqBar 40 ++ "\n" ++ "No votes cast yet")) := by
  constructor <;> intro h
  · simp only [format_tally, hy, hn, ha, hv]
    rw [if_pos h]
  · simp only [format_tally, hy, hn, ha, hv]
    rw [if_neg (by omega)]

/-- The tally object of the spec's concrete example. -/
def tally70 : List (String × Json) :=
  [("yes_count", .str "70"), ("no_count", .str "20"),
   ("abstain_count", .str "5"), ("no_with_veto_count", .str "5")]

/-- Witness for C2: counts 70/20/5/5 give total 100 and the rendered
output, whose Yes line reads "Yes:     70 (70.0%)". -/
theorem tally_percentages_witness :
    pyIntField (.obj tally70) "yes_count" = .ok 70 ∧
    pyIntField (.obj tally70) "no_count" = .ok 20 ∧
    pyIntField (.obj tally70) "abstain_count" = .ok 5 ∧
    pyIntField (.obj tally70) "no_with_veto_count" = .ok 5 ∧
    (70 : Int) + 20 + 5 + 5 = 100 ∧
    format_tally (.obj tally70)
      = .ok "🗳️  PROPOSAL TALLY RESULTS\n========================================\n✅ Yes:     70 (70.0%)\n❌ No:      20 (20.0%)\n⏸️  Abstain: 5 (5.0%)\n🚫 Veto:    5 (5.0%)\n\n📊 Total Votes: 100" :=
  ⟨rfl, rfl, rfl, rfl, rfl,
    (tally_percentages tally70 70 20 5 5 rfl rfl rfl rfl).1 (by decide)⟩

/-- The four count fields read by `_format_tally`, in parse order. -/
def tallyCountKeys : List String :=
  ["yes_count", "no_count", "abstain_count", "no_with_veto_count"]

/-- Claim C3 (amended): for a tally object whose count fields are strings
where present, if some present count field is not a numeric string then
the first failing `int` cast raises `ValueError`, which propagates out of
`_format_tally` and out of `format_response` — the formatter has no
fallback to the raw JSON dump. -/
theorem tally_parse_error_propagates (st : CliState) (fs tfs : List (String × Json))
    (h1 : jLookup fs "tally" = some (.obj tfs))
    (hstr : ∀ k ∈ tallyCountKeys, ∀ v, jLookup tfs k = some v → ∃ s, v = Json.str s)
    (hbad : ∃ k ∈ tallyCountKeys, ∃ s, jLookup tfs k = some (Json.str s) ∧ pyParseInt s = none) :
    format_response st (.obj fs) = .error .valueError := by
  have hfield : ∀ k ∈ tallyCountKeys,
      pyIntField (.obj tfs) k = .error .valueError ∨ ∃ m, pyIntField (.obj tfs) k = .ok m := by
    intro k hk
    cases hl : jLookup tfs k with
    | none =>
      refine Or.inr ⟨0, ?_⟩
      simp [pyIntField, pyGet, hl]
      rfl
    | some v =>
      obtain ⟨s, rfl⟩ := hstr k hk v hl
      cases hp : pyParseInt s with
      | none => exact Or.inl (by simp [pyIntField, pyGet, hl, pyIntOfJson, hp])
      | some m => exact Or.inr ⟨m, by simp [pyIntField, pyGet, hl, pyIntOfJson, hp]⟩
  have hbadf : ∃ k ∈ tallyCountKeys, pyIntField (.obj tfs) k = .error .valueError := by
    obtain ⟨k, hk, s, hl, hp⟩ := hbad
    exact ⟨k, hk, by simp [pyIntField, pyGet, hl, pyIntOfJson, hp]⟩
  rw [format_response_tally st fs _ h1]
  have hyes := hfield "yes_count" (by simp [tallyCountKeys])
  have hno := hfield "no_count" (by simp [tallyCountKeys])
  have habs := hfield "abstain_count" (by simp [tallyCountKeys])
  have hveto := hfield "no_with_veto_count" (by simp [tallyCountKeys])
  rcases hyes with hy | ⟨y, hy⟩
  · simp [format_tally, hy]
  rcases hno with hn | ⟨n, hn⟩
  · simp [format_tally, hy, hn]
  rcases habs with ha | ⟨a, ha⟩
  · simp [format_tally, hy, hn, ha]
  rcases hveto with hv | ⟨v, hv⟩
  · simp [format_tally, hy, hn, ha, hv]
  obtain ⟨k, hk, hkbad⟩ := hbadf
  simp [tallyCountKeys] at hk
  rcases hk with rfl | rfl | rfl | rfl
  · rw [hy] at hkbad; exact Except.noConfusion hkbad
  · rw [hn] at hkbad; exact Except.noConfusion hkbad
  · rw [ha] at hkbad; exact Except.noConfusion hkbad
  · rw [hv] at hkbad; exact Except.noConfusion hkbad

/-- Counterexample to C3 as stated: for a non-numeric yes_count the
formatter yields the propagating `ValueError`, not a pretty-printed JSON
fallback (it yields no successful output at all). -/
theorem tally_parse_error_no_fallback :
    format_response initState (.obj [("tally", .obj [("yes_count", .str "abc")])])
      = .error .valueError ∧
    format_response initState (.obj [("tally", .obj [("yes_count", .str "abc")])])
      ≠ .ok (dumps (.obj [("tally", .obj [("yes_count", .str "abc")])])) := by
  refine ⟨rfl, ?_⟩
  intro h
  have h' : (Except.error PyErr.valueError : Except PyErr String)
      = .ok (dumps (.obj [("tally", .obj [("yes_count", .str "abc")])])) := h
  exact Except.noConfusion h'

/-- A tally object whose bad count is not the first-parsed field: only
`no_count` fails to parse. -/
def tallyBadNo : List (String × Json) :=
  [("yes_count", .str "10"), ("no_count", .str "zzz"),
   ("abstain_count", .str "0"), ("no_with_veto_count", .str "0")]

/-- Witness for C3 at a tally whose non-numeric count is `no_count`. -/
theorem tally_parse_error_propagates_witness :
    format_response initState (.obj [("tally", .obj tallyBadNo)]) = .error .valueError := by
  apply tally_parse_error_propagates initState [("tally", .obj tallyBadNo)] tallyBadNo rfl
  · intro k hk v hv
    simp [tallyCountKeys] at hk
    rcases hk with rfl | rfl | rfl | rfl <;>
      simp [tallyBadNo, jLookup] at hv <;>
      exact ⟨_, hv.symm⟩
  · exact ⟨"no_count", by simp [tallyCountKeys], "zzz", rfl, rfl⟩

/-- Claim C6 (amended): every denom/amount pair is listed; an amount whose
integer value exceeds 1,000,000 is thousands-separated, any other amount
accepted by `int` is rendered as the canonical decimal of that integer
(identical to the input for canonical numerals such as "500"), and a
non-numeric amount is shown verbatim. -/
theorem balances_render (items : List (String × String)) (h : items ≠ []) :
    format_balances (.obj [("balances", .arr (items.map mkBal))])
      = .ok ("💰 ACCOUNT BALANCES\n" ++ eqBar 30 ++ "\n"
        ++ strJoin (items.map (fun p => "🪙 " ++ p.1 ++ ": " ++ amountSpec p.2 ++ "\n"))) := by
  cases items with
  | nil => exact absurd rfl h
  | cons hd tl =>
    have hgo := balGo_map (hd :: tl) ("💰 ACCOUNT BALANCES\n" ++ eqBar 30 ++ "\n")
    simp only [List.map_cons] at hgo ⊢
    simpa [format_balances, pyGet, jLookup, pyTruthy] using hgo

/-- Witness for C6: the spec's concrete amounts 2000000 and 500. -/
theorem balances_render_witness :
    format_balances (.obj [("balances",
        .arr [mkBal ("basecro", "2000000"), mkBal ("basetcro", "500")])])
      = .ok "💰 ACCOUNT BALANCES\n==============================\n🪙 basecro: 2,000,000\n🪙 basetcro: 500\n" := by
  have h := balances_render [("basecro", "2000000"), ("basetcro", "500")]
    (List.cons_ne_nil _ _)
  simpa using h

/-- Counterexample to C6 as stated: the numeric amount "+500" (whose
integer value does not exceed 1,000,000) is rendered as "500", not
as-is. -/
theorem balances_amount_not_verbatim :
    format_balances (.obj [("balances", .arr [mkBal ("basecro", "+500")])])
      = .ok ("💰 ACCOUNT BALANCES\n" ++ eqBar 30 ++ "\n" ++ "🪙 basecro: 500\n") ∧
    ("🪙 basecro: 500\n" : String) ≠ "🪙 basecro: +500\n" :=
  ⟨rfl, by decide⟩

/-- Claim C8: the proposals renderer lists at most the first five
proposals as id and transformed status, and appends a remainder trailer
exactly when more than five proposals exist. -/
theorem proposals_truncation (items : List (String × String)) (h : items ≠ []) :
    format_proposals (.obj [("proposals", .arr (items.map mkProp))])
      = .ok ("📋 GOVERNANCE PROPOSALS\n" ++ eqBar 35 ++ "\n"
        ++ strJoin ((items.take 5).map (fun p =>
            "📄 Proposal #" ++ p.1 ++ ": " ++ pyTitle (pyReplace p.2 "PROPOSAL_STATUS_" "") ++ "\n"))
        ++ (if 5 < items.length then
            "... and " ++ toString (items.length - 5) ++ " more proposals" else "")) := by
  cases items with
  | nil => exact absurd rfl h
  | cons hd tl =>
    have hgo := propGo_map ((hd :: tl).take 5) ("📋 GOVERNANCE PROPOSALS\n" ++ eqBar 35 ++ "\n")
    rw [List.map_take] at hgo
    simp [String.append_assoc] at hgo
    simp [format_proposals, pyGet, jLookup, pyTruthy, String.append_assoc, hgo]

/-- The seven-proposal example list of the spec. -/
def props7 : List (String × String) :=
  [("1", "PROPOSAL_STATUS_PASSED"), ("2", "PROPOSAL_STATUS_PASSED"),
   ("3", "PROPOSAL_STATUS_REJECTED"), ("4", "PROPOSAL_STATUS_VOTING_PERIOD"),
   ("5", "PROPOSAL_STATUS_PASSED"), ("6", "PROPOSAL_STATUS_PASSED"),
   ("7", "PROPOSAL_STATUS_PASSED")]

/-- Witness for C8: seven proposals render exactly five entries followed
by a "2 more" trailer. -/
theorem proposals_truncation_witness :
    format_proposals (.obj [("proposals", .arr (props7.map mkProp))])
      = .ok "📋 GOVERNANCE PROPOSALS\n===================================\n📄 Proposal #1: Passed\n📄 Proposal #2: Passed\n📄 Proposal #3: Rejected\n📄 Proposal #4: Voting_Period\n📄 Proposal #5: Passed\n... and 2 more proposals" :=
  proposals_truncation props7 (List.cons_ne_nil _ _)

/-- Claim C7: the menu loop only ever returns the key at the 1-based
position named by an in-range parsed input line; a non-numeric line and an
out-of-range number each re-prompt with their own distinct error message;
and the spec's three-option example re-prompts twice before returning the
second key. -/
theorem display_menu_spec :
    (∀ (opts : List (String × String)) (inputs : List String) (key : String),
      (display_menu opts inputs).2 = some key →
      ∃ n : Int, 1 ≤ n ∧ n ≤ (opts.length : Int) ∧
        (opts.get? (n - 1).toNat).map Prod.fst = some key ∧
        ∃ line ∈ inputs, pyParseInt (pyStrip line) = some n)
  ∧ (∀ (opts : List (String × String)) (line : String) (rest : List String),
      pyParseInt (pyStrip line) = none →
      display_menu opts (line :: rest)
        = (msgInvalidNumber :: (display_menu opts rest).1, (display_menu opts rest).2))
  ∧ (∀ (opts : List (String × String)) (line : String) (rest : List String) (n : Int),
      pyParseInt (pyStrip line) = some n →
      ¬(1 ≤ n ∧ n ≤ (opts.length : Int)) →
      display_menu opts (line :: rest)
        = (msgOutOfRange opts.length :: (display_menu opts rest).1, (display_menu opts rest).2))
  ∧ (∀ (opts : List (String × String)) (line : String) (rest : List String) (n : Int),
      pyParseInt (pyStrip line) = some n →
      1 ≤ n → n ≤ (opts.length : Int) →
      display_menu opts (line :: rest) = ([], (opts.get? (n - 1).toNat).map Prod.fst))
  ∧ (∀ len : Nat, msgInvalidNumber ≠ msgOutOfRange len)
  ∧ display_menu [("chain_a", "A"), ("chain_b", "B"), ("chain_c", "C")] ["abc", "99", "2"]
      = ([msgInvalidNumber, msgOutOfRange 3], some "chain_b") := by
  refine ⟨?_, ?_, ?_, ?_, ?_, rfl⟩
  · intro opts inputs
    induction inputs with
    | nil => intro key hk; simp [display_menu] at hk
    | cons line rest ih =>
      intro key hk
      cases hp : pyParseInt (pyStrip line) with
      | none =>
        simp only [display_menu, hp] at hk
        obtain ⟨n, h1, h2, h3, l, hl, hpl⟩ := ih key hk
        exact ⟨n, h1, h2, h3, l, List.mem_cons_of_mem _ hl, hpl⟩
      | some n =>
        by_cases hr : 1 ≤ n ∧ n ≤ (opts.length : Int)
        · simp only [display_menu, hp, if_pos hr] at hk
          exact ⟨n, hr.1, hr.2, hk, line, List.mem_cons_self _ _, hp⟩
        · simp only [display_menu, hp, if_neg hr] at hk
          obtain ⟨m, h1, h2, h3, l, hl, hpl⟩ := ih key hk
          exact ⟨m, h1, h2, h3, l, List.mem_cons_of_mem _ hl, hpl⟩
  · intro opts line rest hp
    simp [display_menu, hp]
  · intro opts line rest n hp hr
    simp [display_menu, hp, if_neg hr]
  · intro opts line rest n hp h1 h2
    simp [display_menu, hp, if_pos (And.intro h1 h2)]
  · intro len h
    have hd : msgInvalidNumber.data
        = ("❌ Please enter a number between 1 and ".data ++ (toString len).data) := by
      have hc := congrArg String.data h
      rwa [msgOutOfRange, String.data_append] at hc
    have h17 : msgInvalidNumber.data[17]?
        = ("❌ Please enter a number between 1 and ".data ++ (toString len).data)[17]? := by
      rw [hd]
    rw [List.getElem?_append_left (by decide)] at h17
    exact absurd h17 (by decide)

/-- Witness for C7: the three-option example, with the accepted input
parsing to 2 and selecting the second key. -/
theorem display_menu_spec_witness :
    (display_menu [("chain_a", "A"), ("chain_b", "B"), ("chain_c", "C")] ["abc", "99", "2"]).2
      = some "chain_b" ∧
    ∃ n : Int, 1 ≤ n ∧ n ≤ (([("chain_a", "A"), ("chain_b", "B"), ("chain_c", "C")] :
        List (String × String)).length : Int) ∧
      (([("chain_a", "A"), ("chain_b", "B"), ("chain_c", "C")] :
        List (String × String)).get? (n - 1).toNat).map Prod.fst = some "chain_b" ∧
      ∃ line ∈ ["abc", "99", "2"], pyParseInt (pyStrip line) = some n :=
  ⟨rfl, display_menu_spec.1 _ _ _ rfl⟩

/-- Claim C1 (amended): for every non-empty decoded JSON object the
formatter applies exactly the first matching rule in the fixed key order
(tally, balances, proposals, validators, pool, rewards, commission, block,
node_info), and a non-empty object containing none of these keys is
pretty-printed with 2-space indentation, non-ASCII preserved (`dumps`).
The empty object instead takes the falsy guard (see the counterexample). -/
theorem format_response_first_match (st : CliState) (fs : List (String × Json)) (h : fs ≠ []) :
    (∀ v, jLookup fs "tally" = some v →
      format_response st (.obj fs) = format_tally v)
  ∧ (hasKey fs "tally" = false → hasKey fs "balances" = true →
      format_response st (.obj fs) = format_balances (.obj fs))
  ∧ (hasKey fs "tally" = false → hasKey fs "balances" = false →
      hasKey fs "proposals" = true →
      format_response st (.obj fs) = format_proposals (.obj fs))
  ∧ (hasKey fs "tally" = false → hasKey fs "balances" = false →
      hasKey fs "proposals" = false → hasKey fs "validators" = true →
      format_response st (.obj fs) = format_validators (.obj fs))
  ∧ (hasKey fs "tally" = false → hasKey fs "balances" = false →
      hasKey fs "proposals" = false → hasKey fs "validators" = false →
      hasKey fs "pool" = true →
      format_response st (.obj fs) = format_pool (.obj fs))
  ∧ (hasKey fs "tally" = false → hasKey fs "balances" = false →
      hasKey fs "proposals" = false → hasKey fs "validators" = false →
      hasKey fs "pool" = false → hasKey fs "rewards" = true →
      format_response st (.obj fs) = format_rewards (.obj fs))
  ∧ (hasKey fs "tally" = false → hasKey fs "balances" = false →
      hasKey fs "proposals" = false → hasKey fs "validators" = false →
      hasKey fs "pool" = false → hasKey fs "rewards" = false →
      hasKey fs "commission" = true →
      format_response st (.obj fs) = format_commission (.obj fs))
  ∧ (hasKey fs "tally" = false → hasKey fs "balances" = false →
      hasKey fs "proposals" = false → hasKey fs "validators" = false →
      hasKey fs "pool" = false → hasKey fs "rewards" = false →
      hasKey fs "commission" = false → hasKey fs "block" = true →
      format_response st (.obj fs) = format_block (.obj fs))
  ∧ (hasKey fs "tally" = false → hasKey fs "balances" = false →
      hasKey fs "proposals" = false → hasKey fs "validators" = false →
      hasKey fs "pool" = false → hasKey fs "rewards" = false →
      hasKey fs "commission" = false → hasKey fs "block" = false →
      hasKey fs "node_info" = true →
      format_response st (.obj fs) = format_node_info st (.obj fs))
  ∧ (hasKey fs "tally" = false → hasKey fs "balances" = false →
      hasKey fs "proposals" = false → hasKey fs "validators" = false →
      hasKey fs "pool" = false → hasKey fs "rewards" = false →
      hasKey fs "commission" = false → hasKey fs "block" = false →
      hasKey fs "node_info" = false →
      format_response st (.obj fs) = .ok (dumps (.obj fs))) := by
  cases fs with
  | nil => exact absurd rfl h
  | cons p rest =>
    refine ⟨?_, ?_, ?_, ?_, ?_, ?_, ?_, ?_, ?_, ?_⟩
    · intro v hv
      exact format_response_tally st (p :: rest) v hv
    · intro h1 h2
      simp [format_response, pyIn, pyTruthy, h1, h2]
    · intro h1 h2 h3
      simp [format_response, pyIn, pyTruthy, h1, h2, h3]
    · intro h1 h2 h3 h4
      simp [format_response, pyIn, pyTruthy, h1, h2, h3, h4]
    · intro h1 h2 h3 h4 h5
      simp [format_response, pyIn, pyTruthy, h1, h2, h3, h4, h5]
    · intro h1 h2 h3 h4 h5 h6
      simp [format_response, pyIn, pyTruthy, h1, h2, h3, h4, h5, h6]
    · intro h1 h2 h3 h4 h5 h6 h7
      simp [format_response, pyIn, pyTruthy, h1, h2, h3, h4, h5, h6, h7]
    · intro h1 h2 h3 h4 h5 h6 h7 h8
      simp [format_response, pyIn, pyTruthy, h1, h2, h3, h4, h5, h6, h7, h8]
    · intro h1 h2 h3 h4 h5 h6 h7 h8 h9
      simp [format_response, pyIn, pyTruthy, h1, h2, h3, h4, h5, h6, h7, h8, h9]
    · intro h1 h2 h3 h4 h5 h6 h7 h8 h9
      simp [format_response, pyIn, pyTruthy, h1, h2, h3, h4, h5, h6, h7, h8, h9]

/-- Witness for C1: an object carrying both a later-ranked key
(node_info) and the first-ranked key (tally) dispatches to the tally
renderer. -/
theorem format_response_first_match_witness :
    ([("node_info", Json.obj []), ("tally", Json.obj [("yes_count", Json.str "1")])]
      ≠ ([] : List (String × Json))) ∧
    jLookup [("node_info", Json.obj []), ("tally", Json.obj [("yes_count", Json.str "1")])] "tally"
      = some (.obj [("yes_count", Json.str "1")]) ∧
    format_response initState
        (.obj [("node_info", .obj []), ("tally", .obj [("yes_count", .str "1")])])
      = format_tally (.obj [("yes_count", Json.str "1")]) :=
  ⟨by simp, rfl,
    (format_response_first_match initState _ (by simp)).1 _ rfl⟩

/-- Counterexample to C1 as stated: the empty object contains none of the
recognized keys, yet it is not pretty-printed — the falsy guard returns
the fixed no-data message instead. -/
theorem format_response_empty_obj_not_dumped :
    format_response initState (.obj []) = .ok "No data received" ∧
    dumps (.obj []) = "\x7b\x7d" ∧
    "No data received" ≠ "\x7b\x7d" :=
  ⟨rfl, rfl, by decide⟩
